import Mathlib

/-!
Verification development for the `dcm-redact` repository (`src/main.rs`).

The program is a single-file Rust GUI tool that opens a raster or DICOM
image, converts it to a full-resolution 16-bit grayscale buffer, lets the
operator blacken rectangular regions, and saves the result.  This file
gives a shallow embedding of the pixel-data core:

* `Gray16Image` models `ImageBuffer<Luma<u16>, Vec<u16>>` (row-major list
  of samples; sample values are natural numbers, `< 2^16` for real data).
* `blacken_rect`, `fit_within_max_dim`, `gray16_to_display_color_image`,
  `write_dynamic_image_to_dicom`, `App.load_dcm`, `App.load_image`,
  `App.screen_to_pixel` and the Save-As handler are translated from the
  Rust source, keeping the source's names.
* External library calls (filesystem, the `dicom` crate's parser and pixel
  decoder, the `image` crate's `resize` and `open`) are modelled as oracle
  parameters: the embedded function receives the outcome of the call.
* `image`'s `put_pixel` panics on an out-of-bounds coordinate, so it is
  modelled as an `Option`-returning update; a `none` result of
  `blacken_rect` marks an out-of-bounds access.
* Floating-point arithmetic (`f32`/`f64` in `screen_to_pixel` and
  `fit_within_max_dim`) is modelled exactly over `ℚ`.
-/

namespace DcmRedact

/-- Row-major 16-bit grayscale buffer, modelling
`type Gray16Image = ImageBuffer<Luma<u16>, Vec<u16>>`.  `data` holds the
samples of row `0`, then row `1`, …; the pixel `(x, y)` lives at index
`y * width + x`. -/
@[ext]
structure Gray16Image where
  width : ℕ
  height : ℕ
  data : List ℕ
deriving DecidableEq

/-- Sample of pixel `(x, y)` (the `img.get_pixel(x, y)` accessor), read off
the row-major buffer. -/
def getPixel (img : Gray16Image) (x y : ℕ) : ℕ :=
  img.data.getD (y * img.width + x) 0

/-- Unchecked in-place pixel write: the buffer update performed by a
successful `img.put_pixel(x, y, Luma([v]))`. -/
def setPix (img : Gray16Image) (x y v : ℕ) : Gray16Image :=
  { img with data := img.data.set (y * img.width + x) v }

/-- The `image` crate's `put_pixel` panics when `(x, y)` is outside the
buffer, so the embedding returns `none` exactly on an out-of-bounds
access. -/
def put_pixel (img : Gray16Image) (x y v : ℕ) : Option Gray16Image :=
  if x < img.width ∧ y < img.height then some (setPix img x y v) else none

/-- Embedding of `blacken_rect` (src/main.rs:67-78).  The source clamps
`x0` to `w.saturating_sub(1)` and `y0` to `h.saturating_sub(1)` (`Nat`
subtraction is saturating), clamps `x1` to `w` and `y1` to `h`, then runs
`for y in y0..y1 { for x in x0..x1 { img.put_pixel(x, y, Luma([0u16])) } }`. -/
def blacken_rect (img : Gray16Image) (x0 y0 x1 y1 : ℕ) : Option Gray16Image :=
  let w := img.width
  let h := img.height
  let x0c := min x0 (w - 1)
  let y0c := min y0 (h - 1)
  let x1c := min x1 w
  let y1c := min y1 h
  (List.range' y0c (y1c - y0c)).foldlM
    (fun im y =>
      (List.range' x0c (x1c - x0c)).foldlM (fun im x => put_pixel im x y 0) im)
    img

/-- Pure counterpart of `blacken_rect`: the same double loop with the
unchecked write.  `blacken_rect` is proved equal to `some` of this. -/
def blackenPure (img : Gray16Image) (x0 y0 x1 y1 : ℕ) : Gray16Image :=
  let w := img.width
  let h := img.height
  let x0c := min x0 (w - 1)
  let y0c := min y0 (h - 1)
  let x1c := min x1 w
  let y1c := min y1 h
  (List.range' y0c (y1c - y0c)).foldl
    (fun im y =>
      (List.range' x0c (x1c - x0c)).foldl (fun im x => setPix im x y 0) im)
    img

/-- Embedding of `fit_within_max_dim` (src/main.rs:82-91).  The `f64`
arithmetic `max_dim as f64 / max_side as f64`, `round()`, `.max(1.0)` is
modelled exactly over `ℚ`; `round` on a nonnegative rational agrees with
Rust's round-half-away-from-zero. -/
def fit_within_max_dim (w h max_dim : ℕ) : ℕ × ℕ :=
  let max_side := max w h
  if max_side ≤ max_dim then (w, h)
  else
    let scale : ℚ := (max_dim : ℚ) / (max_side : ℚ)
    let new_w := (max (round ((w : ℚ) * scale)) 1).toNat
    let new_h := (max (round ((h : ℚ) * scale)) 1).toNat
    (new_w, new_h)

/-- DICOM attribute tags used by the program
(`dicom::dictionary_std::tags`); `other` stands for any further tag a
container may carry. -/
inductive Tag where
  | bitsAllocated
  | bitsStored
  | highBit
  | pixelRepresentation
  | photometricInterpretation
  | pixelData
  | other (group element : ℕ)
deriving DecidableEq

/-- DICOM element values as the program uses them: `US` unsigned shorts,
`CS` code strings, `OW` 16-bit binary pixel data. -/
inductive Value where
  | us (n : ℕ)
  | cs (s : String)
  | ow (samples : List ℕ)
deriving DecidableEq

/-- An in-memory DICOM object (`FileDicomObject<InMemDicomObject>`): a
list of elements; lookup takes the first matching element. -/
abbrev DicomObj := List (Tag × Value)

/-- Element lookup, `obj.element(tag)`: `none` models the missing-tag
error of the `dicom` crate. -/
def dcmElement (obj : DicomObj) (t : Tag) : Option Value :=
  (obj.find? (fun e => e.1 == t)).map (fun e => e.2)

/-- Insert-or-replace, `obj.put(DataElement::new(tag, vr, value))`. -/
def dcmPut (obj : DicomObj) (t : Tag) (v : Value) : DicomObj :=
  (t, v) :: obj.filter (fun e => e.1 != t)

/-- The `.to_int::<u16>()` conversion: succeeds on a `US` value. -/
def toInt : Value → Option ℕ
  | .us n => some n
  | _ => none

/-- The `.to_str()` conversion: succeeds on a `CS` string value (a
failure models the not-UTF-8 error). -/
def toStr : Value → Option String
  | .cs s => some s
  | _ => none

/-- The program's error enum (`enum DCMRedactErrors`). -/
inductive DCMRedactErrors where
  | ValueError (msg : String)
deriving DecidableEq

instance {ε α : Type} [DecidableEq ε] [DecidableEq α] : DecidableEq (Except ε α)
  | .error a, .error b =>
    if h : a = b then isTrue (by rw [h])
    else isFalse (fun he => h (by injection he))
  | .error _, .ok _ => isFalse (fun he => Except.noConfusion he)
  | .ok _, .error _ => isFalse (fun he => Except.noConfusion he)
  | .ok a, .ok b =>
    if h : a = b then isTrue (by rw [h])
    else isFalse (fun he => h (by injection he))

/-- A filesystem path: its display string plus the extracted extension,
`path.extension().and_then(|e| e.to_str())`. -/
structure Path where
  full : String
  extension : Option String
deriving DecidableEq

/-- An egui `ColorImage`: the `[w, h]` size plus a flat pixel list.  Each
pixel is produced by `egui::Color32::from_gray(v)` and is modelled by its
gray byte `v`. -/
structure ColorImage where
  size : ℕ × ℕ
  pixels : List ℕ
deriving DecidableEq

/-- Per-sample display conversion inside `gray16_to_display_color_image`
(src/main.rs:108-114): `let mut v = (p[0] >> 8) as u8;` then, when
`photometric` is `Some("MONOCHROME1")`, `v = 255u8.saturating_sub(v)`.
The `as u8` truncation is `% 256`, and `Nat` subtraction is saturating,
matching `saturating_sub`. -/
def displayByte (photometric : Option String) (sample : ℕ) : ℕ :=
  let v := (sample >>> 8) % 256
  if photometric = some "MONOCHROME1" then 255 - v else v

/-- Embedding of `gray16_to_display_color_image` (src/main.rs:96-120).
The call `image::imageops::resize(full, display_w, display_h,
FilterType::Nearest)` is an external library call, supplied as the
oracle `resizeF`. -/
def gray16_to_display_color_image (resizeF : Gray16Image → ℕ → ℕ → Gray16Image)
    (full : Gray16Image) (display_w display_h : ℕ)
    (photometric : Option String) : ColorImage :=
  let resized := resizeF full display_w display_h
  { size := (display_w, display_h)
    pixels := resized.data.map (displayByte photometric) }

/-- Embedding of `write_dynamic_image_to_dicom` (src/main.rs:25-64).  The
Rust function mutates `file_obj` through `&mut` and returns `()`; the
embedding returns the mutated object.  The final
`let _ = file_obj.write_to_file(save_path);` discards the serialization
outcome, so the oracle `writeResult` is ignored and the return type has
no error channel. -/
def write_dynamic_image_to_dicom (file_obj : DicomObj) (img : Gray16Image)
    (save_path : Path) (writeResult : Except String Unit) : DicomObj :=
  let raw_u16 := img.data
  let o1 := dcmPut file_obj .bitsAllocated (.us 16)
  let o2 := dcmPut o1 .bitsStored (.us 16)
  let o3 := dcmPut o2 .highBit (.us 15)
  let o4 := dcmPut o3 .pixelRepresentation (.us 0)
  let o5 := dcmPut o4 .photometricInterpretation (.cs "MONOCHROME2")
  let o6 := dcmPut o5 .pixelData (.ow raw_u16)
  o6

/-- The application state (struct `App`, src/main.rs:122-143), restricted
to the document fields.  The GPU texture handle `tex` and the transient
drag-selection fields are UI-external and omitted; `last_error` is kept
because the error-reporting claims refer to it. -/
structure App where
  gray_img : Option Gray16Image
  color_img : Option ColorImage
  display_dims : Option (ℕ × ℕ)
  opened_path : Option Path
  fit_scale : ℚ
  is_dcm : Bool
  dcm : Option DicomObj
  last_error : Option String
  photometric_interpretation : Option String
deriving DecidableEq

/-- Outcomes of the external library calls made while loading a given
path: `dicom::object::open_file`, the pixel-decode chain
(`decode_pixel_data()`, `.to_dynamic_image(0)`, `.to_luma16()`, with the
error message already formatted), `image::open` followed by
`.to_luma16()`, and `image::imageops::resize`. -/
structure LoadOracles where
  openFile : Except String DicomObj
  decodePixelData : Except String Gray16Image
  imageOpen : Except String Gray16Image
  resizeF : Gray16Image → ℕ → ℕ → Gray16Image

/-- Embedding of `App::load_dcm` (src/main.rs:164-222), returning the
updated state together with the `Result`.  Note the order of effects in
the source: `self.dcm` and `self.is_dcm` are assigned as soon as the
file parses, before any validation runs, and
`self.photometric_interpretation` is assigned before its value is
checked. -/
def App.load_dcm (s : App) (orc : LoadOracles) :
    App × Except DCMRedactErrors Gray16Image :=
  match orc.openFile with
  | .error e => (s, .error (.ValueError ("Failed to open DICOM file: " ++ e)))
  | .ok file =>
    let s1 := { s with dcm := some file, is_dcm := true }
    match dcmElement file .bitsAllocated with
    | none => (s1, .error (.ValueError "Missing BITS_ALLOCATED tag"))
    | some bav =>
      match toInt bav with
      | none => (s1, .error (.ValueError "Invalid BITS_ALLOCATED value"))
      | some bits_allocated =>
        if bits_allocated ≠ 16 ∧ bits_allocated ≠ 12 then
          (s1, .error (.ValueError
            ("Mismatched BITS_ALLOCATED, expected 12 or 16 got "
              ++ toString bits_allocated)))
        else
          match dcmElement file .photometricInterpretation with
          | none => (s1, .error (.ValueError "Missing PHOTOMETRIC_INTERPRETATION tag"))
          | some pv =>
            match toStr pv with
            | none => (s1, .error (.ValueError
                "Invalid PHOTOMETRIC_INTERPRETATION value (not UTF-8)"))
            | some pmStr =>
              let s2 := { s1 with photometric_interpretation := some pmStr }
              if pmStr ≠ "MONOCHROME1" ∧ pmStr ≠ "MONOCHROME2" then
                (s2, .error (.ValueError
                  ("Mismatched PHOTOMETRIC_INTERPRETATION, expected MONOCHROME1 or MONOCHROME2 got "
                    ++ pmStr)))
              else
                match orc.decodePixelData with
                | .error e => (s2, .error (.ValueError e))
                | .ok g => (s2, .ok g)

/-- ASCII lowercasing of one character (`u8::to_ascii_lowercase`). -/
def asciiLower (c : Char) : Char :=
  if 65 ≤ c.toNat ∧ c.toNat ≤ 90 then Char.ofNat (c.toNat + 32) else c

/-- Rust's `str::eq_ignore_ascii_case`. -/
def eqIgnoreAsciiCase (a b : String) : Bool :=
  a.data.map asciiLower == b.data.map asciiLower

/-- Case-insensitive `.dcm` extension test,
`ext.eq_ignore_ascii_case("dcm")`. -/
def extIsDcm (p : Path) : Bool :=
  match p.extension with
  | some e => eqIgnoreAsciiCase e "dcm"
  | none => false

/-- Embedding of `App::load_image` (src/main.rs:224-265).  The egui
texture upload (`ctx.load_texture`) is GPU-external and omitted.  On the
generic branch the source clears `is_dcm`, `dcm` and
`photometric_interpretation` before `image::open` has a chance to
fail. -/
def App.load_image (s : App) (path : Path) (orc : LoadOracles) :
    App × Except String Unit :=
  let loaded : App × Except String Gray16Image :=
    if extIsDcm path then
      match s.load_dcm orc with
      | (sd, .error (.ValueError e)) =>
        (sd, .error ("Invalid DICOM: ValueError(\"" ++ e ++ "\")"))
      | (sd, .ok g) => (sd, .ok g)
    else
      let s1 := { s with is_dcm := false, dcm := none, photometric_interpretation := none }
      match orc.imageOpen with
      | .error e => (s1, .error ("Failed to open image: " ++ path.full ++ ": " ++ e))
      | .ok g => (s1, .ok g)
  match loaded with
  | (sl, .error e) => (sl, .error e)
  | (sl, .ok full_gray) =>
    let dims := fit_within_max_dim full_gray.width full_gray.height 8192
    let color_img := gray16_to_display_color_image orc.resizeF full_gray dims.1 dims.2
      sl.photometric_interpretation
    ({ sl with
        gray_img := some full_gray
        display_dims := some dims
        color_img := some color_img
        opened_path := some path
        fit_scale := 1 }, .ok ())

/-- Embedding of `App::rebuild_display_from_full` (src/main.rs:275-290);
the `refresh_texture` call is GPU-external and omitted. -/
def App.rebuild_display_from_full (resizeF : Gray16Image → ℕ → ℕ → Gray16Image)
    (s : App) : App :=
  match s.gray_img, s.display_dims with
  | some full, some dims =>
    let ci := gray16_to_display_color_image resizeF full dims.1 dims.2
      s.photometric_interpretation
    { s with color_img := some ci }
  | _, _ => s

/-- Embedding of the Save As branch of `App::update` (src/main.rs:360-375):
when an image and a path are open and an output path was picked, a DICOM
document is written through `write_dynamic_image_to_dicom` on
`self.dcm.as_mut()` (mutating the retained container in place); otherwise
`let _ = img.save(out);` runs with its result discarded.  No branch
records an error or touches `last_error`. -/
def App.saveAsHandler (s : App) (out : Path) (writeResult : Except String Unit) : App :=
  match s.gray_img, s.opened_path with
  | some img, some _ =>
    if s.is_dcm then
      match s.dcm with
      | some d => { s with dcm := some (write_dynamic_image_to_dicom d img out writeResult) }
      | none => s
    else s
  | _, _ => s

/-- A point in screen space (egui `Pos2`), its `f32` coordinates modelled
exactly over `ℚ`. -/
structure Pos2 where
  x : ℚ
  y : ℚ

/-- An axis-aligned rectangle in screen space (egui `Rect`). -/
structure Rect where
  left : ℚ
  top : ℚ
  right : ℚ
  bottom : ℚ

/-- egui's `Rect::width`. -/
def Rect.width (r : Rect) : ℚ := r.right - r.left

/-- egui's `Rect::height`. -/
def Rect.height (r : Rect) : ℚ := r.bottom - r.top

/-- egui's `Rect::contains`: inclusive on all four edges. -/
def Rect.contains (r : Rect) (p : Pos2) : Prop :=
  r.left ≤ p.x ∧ p.x ≤ r.right ∧ r.top ≤ p.y ∧ p.y ≤ r.bottom

instance (r : Rect) (p : Pos2) : Decidable (r.contains p) := by
  unfold Rect.contains
  infer_instance

/-- Rust's `val.clamp(lo, hi)`. -/
def clampInt (val lo hi : ℤ) : ℤ :=
  if val < lo then lo else if hi < val then hi else val

/-- Embedding of `App::screen_to_pixel` (src/main.rs:305-321), the `f32`
arithmetic modelled exactly over `ℚ`.  The source computes `w - 1` in
`u32`; the embedding uses saturating `Nat` subtraction (the app reaches
this code only with a loaded image, whose dimensions are positive). -/
def App.screen_to_pixel (s : App) (img_rect : Rect) (p : Pos2) : Option (ℕ × ℕ) :=
  match s.gray_img with
  | none => none
  | some i =>
    let w := i.width
    let h := i.height
    if img_rect.contains p then
      let u := (p.x - img_rect.left) / img_rect.width
      let v := (p.y - img_rect.top) / img_rect.height
      let x := (clampInt ⌊u * (w : ℚ)⌋ 0 (((w - 1 : ℕ) : ℤ))).toNat
      let y := (clampInt ⌊v * (h : ℚ)⌋ 0 (((h - 1 : ℕ) : ℤ))).toNat
      some (x, y)
    else none

/-- Modelled from the spec's words (§4.4), for comparison with
`App.screen_to_pixel`: `to_canonical` returns `none` for a point outside
the display rectangle and otherwise `(floor(u*w), floor(v*h))`, each
clamped to `[0, dimension-1]`. -/
def to_canonical_spec (w h : ℕ) (r : Rect) (p : Pos2) : Option (ℕ × ℕ) :=
  if r.contains p then
    some ((clampInt ⌊(p.x - r.left) / r.width * (w : ℚ)⌋ 0 ((w : ℤ) - 1)).toNat,
          (clampInt ⌊(p.y - r.top) / r.height * (h : ℚ)⌋ 0 ((h : ℤ) - 1)).toNat)
  else none

/-- Concrete 4-by-4 all-ones image, used as a counterexample input. -/
def img4 : Gray16Image := ⟨4, 4, List.replicate 16 1⟩

/-- Concrete 2-by-2 image, used as a witness input. -/
def img2 : Gray16Image := ⟨2, 2, [5, 6, 7, 8]⟩

/-- The freshly constructed application state (`App::new`). -/
def app0 : App :=
  { gray_img := none, color_img := none, display_dims := none, opened_path := none
    fit_scale := 1, is_dcm := false, dcm := none, last_error := none
    photometric_interpretation := none }

/-- Oracles for a load whose only interesting outcome is the DICOM file
parse; decode and generic open fail, resize is the identity on the
buffer. -/
def orcOf (f : Except String DicomObj) : LoadOracles :=
  ⟨f, .error "no decode", .error "no image", fun im _ _ => im⟩

/-- A currently open DICOM document: the state after a successful DICOM
load. -/
def appDoc : App :=
  { gray_img := some img2, color_img := some ⟨(2, 2), [0, 0, 0, 0]⟩
    display_dims := some (2, 2), opened_path := some ⟨"old.dcm", some "dcm"⟩
    fit_scale := 1, is_dcm := true
    dcm := some [(Tag.bitsAllocated, Value.us 16),
                 (Tag.photometricInterpretation, Value.cs "MONOCHROME2")]
    last_error := none, photometric_interpretation := some "MONOCHROME2" }

/-- A currently open generic (non-DICOM) document. -/
def appDocG : App :=
  { gray_img := some img2, color_img := some ⟨(2, 2), [0, 0, 0, 0]⟩
    display_dims := some (2, 2), opened_path := some ⟨"old.png", some "png"⟩
    fit_scale := 1, is_dcm := false, dcm := none, last_error := none
    photometric_interpretation := none }

/-- A currently open MONOCHROME1 DICOM document. -/
def appDocM1 : App :=
  { gray_img := some img2, color_img := some ⟨(2, 2), [0, 0, 0, 0]⟩
    display_dims := some (2, 2), opened_path := some ⟨"old.dcm", some "dcm"⟩
    fit_scale := 1, is_dcm := true
    dcm := some [(Tag.photometricInterpretation, Value.cs "MONOCHROME1"),
                 (Tag.bitsAllocated, Value.us 16)]
    last_error := none, photometric_interpretation := some "MONOCHROME1" }

/-- A generic raster path whose open fails. -/
def pathPng : Path := ⟨"new.png", some "png"⟩

/-- A DICOM path. -/
def pathDcm : Path := ⟨"bad.dcm", some "dcm"⟩

/-- An output path for saving. -/
def outPath : Path := ⟨"out.dcm", some "dcm"⟩

/-- Oracles for a load of an unreadable generic image. -/
def orcFail : LoadOracles :=
  ⟨.error "io", .error "io", .error "could not load", fun im _ _ => im⟩

/-- Oracles for a load of a DICOM file that parses but carries
`BitsAllocated = 8`. -/
def orcBadDcm : LoadOracles :=
  ⟨.ok [(Tag.bitsAllocated, Value.us 8)], .error "no decode", .error "no image",
    fun im _ _ => im⟩

example : blacken_rect ⟨2, 2, [5, 6, 7, 8]⟩ 0 0 1 1 = some ⟨2, 2, [0, 6, 7, 8]⟩ := by decide

example : blacken_rect ⟨4, 4, List.replicate 16 1⟩ 10 0 12 2 =
    some ⟨4, 4, [1, 1, 1, 0, 1, 1, 1, 0, 1, 1, 1, 1, 1, 1, 1, 1]⟩ := by decide

example : fit_within_max_dim 100 50 8192 = (100, 50) := by
  norm_num [fit_within_max_dim]

example : fit_within_max_dim 1 32768 8192 = (1, 8192) := by
  norm_num [fit_within_max_dim, round_eq]
  decide

/-- Membership in a step-1 `List.range'` is the half-open interval. -/
theorem mem_range'_iff {s n m : ℕ} : m ∈ List.range' s n ↔ s ≤ m ∧ m < s + n := by
  rw [List.mem_range']
  constructor
  · rintro ⟨i, hi, rfl⟩
    omega
  · intro h
    exact ⟨m - s, by omega, by omega⟩

/-- Writing a `0` with `List.set` changes exactly the written index (an
out-of-range write is a no-op, and the `getD` fallback is also `0`). -/
theorem set_zero_getD (l : List ℕ) (i j : ℕ) :
    (l.set i 0).getD j 0 = if j = i then 0 else l.getD j 0 := by
  simp only [List.getD_eq_getElem?_getD, List.getElem?_set]
  rcases eq_or_ne i j with h | h
  · subst h
    by_cases hi : i < l.length
    · simp [hi]
    · simp [hi, List.getElem?_eq_none (le_of_not_lt hi)]
  · simp [h, Ne.symm h]

/-- A fold of zero-writing steps zeroes an index exactly when some step
covers it. -/
theorem foldl_zero_getD {β : Type} (j : ℕ) (g : β → List ℕ → List ℕ) (C : β → Prop)
    [DecidablePred C]
    (hg : ∀ (y : β) (d : List ℕ), (g y d).getD j 0 = if C y then 0 else d.getD j 0) :
    ∀ (ys : List β) (d : List ℕ),
      (ys.foldl (fun d y => g y d) d).getD j 0 = if ∃ y ∈ ys, C y then 0 else d.getD j 0 := by
  intro ys
  induction ys with
  | nil => intro d; simp
  | cons a as ih =>
    intro d
    rw [List.foldl_cons, ih (g a d), hg a d]
    by_cases hCa : C a <;> by_cases hex : ∃ y ∈ as, C y <;>
      simp [hCa, hex, List.exists_mem_cons_iff]

/-- A fold of length-preserving steps preserves the length. -/
theorem foldl_length_pres {β : Type} (g : β → List ℕ → List ℕ)
    (hg : ∀ (y : β) (d : List ℕ), (g y d).length = d.length) :
    ∀ (ys : List β) (d : List ℕ), (ys.foldl (fun d y => g y d) d).length = d.length := by
  intro ys
  induction ys with
  | nil => intro d; rfl
  | cons a as ih => intro d; rw [List.foldl_cons, ih, hg]

/-- The inner (single-row) loop of `blacken_rect`, pure form: dimensions are
preserved and the buffer is the corresponding fold of `List.set`. -/
theorem rowFoldl_spec (y : ℕ) (xs : List ℕ) :
    ∀ (im : Gray16Image),
      ((xs.foldl (fun im x => setPix im x y 0) im).width = im.width ∧
       (xs.foldl (fun im x => setPix im x y 0) im).height = im.height) ∧
      (xs.foldl (fun im x => setPix im x y 0) im).data =
        xs.foldl (fun d x => d.set (y * im.width + x) 0) im.data := by
  induction xs with
  | nil => intro im; exact ⟨⟨rfl, rfl⟩, rfl⟩
  | cons a as ih => intro im; exact ih (setPix im a y 0)

/-- The double loop of `blacken_rect`, pure form: dimensions preserved, and
the buffer is a nested fold of `List.set` over the two ranges. -/
theorem colFoldl_spec (xs : List ℕ) :
    ∀ (ys : List ℕ) (im : Gray16Image),
      ((ys.foldl (fun im y => xs.foldl (fun im x => setPix im x y 0) im) im).width = im.width ∧
       (ys.foldl (fun im y => xs.foldl (fun im x => setPix im x y 0) im) im).height = im.height) ∧
      (ys.foldl (fun im y => xs.foldl (fun im x => setPix im x y 0) im) im).data =
        ys.foldl (fun d y => xs.foldl (fun d x => d.set (y * im.width + x) 0) d) im.data := by
  intro ys
  induction ys with
  | nil => intro im; exact ⟨⟨rfl, rfl⟩, rfl⟩
  | cons a as ih =>
    intro im
    obtain ⟨⟨hw, hh⟩, hd⟩ := rowFoldl_spec a xs im
    obtain ⟨⟨ihw, ihh⟩, ihd⟩ := ih (xs.foldl (fun im x => setPix im x a 0) im)
    refine ⟨⟨?_, ?_⟩, ?_⟩
    · rw [List.foldl_cons, ihw, hw]
    · rw [List.foldl_cons, ihh, hh]
    · rw [List.foldl_cons, ihd, hw, hd, List.foldl_cons]

/-- `blackenPure` preserves the dimensions and its buffer is the nested
`List.set` fold over the clamped coordinate ranges. -/
theorem blackenPure_spec (img : Gray16Image) (x0 y0 x1 y1 : ℕ) :
    ((blackenPure img x0 y0 x1 y1).width = img.width ∧
     (blackenPure img x0 y0 x1 y1).height = img.height) ∧
    (blackenPure img x0 y0 x1 y1).data =
      (List.range' (min y0 (img.height - 1)) (min y1 img.height - min y0 (img.height - 1))).foldl
        (fun d y =>
          (List.range' (min x0 (img.width - 1)) (min x1 img.width - min x0 (img.width - 1))).foldl
            (fun d x => d.set (y * img.width + x) 0) d)
        img.data := by
  simp only [blackenPure]
  exact colFoldl_spec _ _ img

/-- Sample-level description of `blackenPure`: an index is zeroed exactly
when it is hit by the double loop, all other indices keep their value. -/
theorem blackenPure_getD (img : Gray16Image) (x0 y0 x1 y1 j : ℕ) :
    (blackenPure img x0 y0 x1 y1).data.getD j 0 =
      if ∃ y ∈ List.range' (min y0 (img.height - 1))
                  (min y1 img.height - min y0 (img.height - 1)),
         ∃ x ∈ List.range' (min x0 (img.width - 1))
                  (min x1 img.width - min x0 (img.width - 1)),
           j = y * img.width + x
      then 0 else img.data.getD j 0 := by
  obtain ⟨⟨_, _⟩, hd⟩ := blackenPure_spec img x0 y0 x1 y1
  rw [hd]
  exact foldl_zero_getD j _ _
    (fun y d => foldl_zero_getD j _ (fun x => j = y * img.width + x)
      (fun x d => set_zero_getD d (y * img.width + x) j) _ d) _ img.data

/-- The buffer length is preserved by `blackenPure`. -/
theorem blackenPure_data_length (img : Gray16Image) (x0 y0 x1 y1 : ℕ) :
    (blackenPure img x0 y0 x1 y1).data.length = img.data.length := by
  obtain ⟨⟨_, _⟩, hd⟩ := blackenPure_spec img x0 y0 x1 y1
  rw [hd]
  exact foldl_length_pres _
    (fun y d => foldl_length_pres _ (fun x d => List.length_set ..) _ d) _ img.data

/-- An in-bounds `put_pixel` succeeds and performs the unchecked write. -/
theorem put_pixel_pos (img : Gray16Image) (x y v : ℕ)
    (hx : x < img.width) (hy : y < img.height) :
    put_pixel img x y v = some (setPix img x y v) := by
  simp [put_pixel, hx, hy]

/-- When every write of a row is in bounds, the monadic row loop succeeds
and equals the pure row loop. -/
theorem rowFoldlM_eq (y : ℕ) (xs : List ℕ) :
    ∀ (im : Gray16Image), (∀ x ∈ xs, x < im.width) → y < im.height →
      xs.foldlM (fun im x => put_pixel im x y 0) im =
        some (xs.foldl (fun im x => setPix im x y 0) im) := by
  induction xs with
  | nil => intro im _ _; rfl
  | cons a as ih =>
    intro im hx hy
    have ha : a < im.width := hx a (List.mem_cons_self a as)
    rw [List.foldlM_cons, put_pixel_pos im a y 0 ha hy]
    simpa using ih (setPix im a y 0) (fun x hxm => hx x (List.mem_cons_of_mem _ hxm)) hy

/-- When every write of the double loop is in bounds, the monadic double
loop succeeds and equals the pure double loop. -/
theorem colFoldlM_eq (xs : List ℕ) :
    ∀ (ys : List ℕ) (im : Gray16Image),
      (∀ x ∈ xs, x < im.width) → (∀ y ∈ ys, y < im.height) →
      ys.foldlM (fun im y => xs.foldlM (fun im x => put_pixel im x y 0) im) im =
        some (ys.foldl (fun im y => xs.foldl (fun im x => setPix im x y 0) im) im) := by
  intro ys
  induction ys with
  | nil => intro im _ _; rfl
  | cons a as ih =>
    intro im hx hy
    have ha : a < im.height := hy a (List.mem_cons_self a as)
    rw [List.foldlM_cons, rowFoldlM_eq a xs im hx ha]
    obtain ⟨⟨hw, hh⟩, _⟩ := rowFoldl_spec a xs im
    have hx' : ∀ x ∈ xs, x < (xs.foldl (fun im x => setPix im x a 0) im).width := by
      intro x hxm
      rw [hw]
      exact hx x hxm
    have hy' : ∀ y ∈ as, y < (xs.foldl (fun im x => setPix im x a 0) im).height := by
      intro y hym
      rw [hh]
      exact hy y (List.mem_cons_of_mem _ hym)
    simpa using ih (xs.foldl (fun im x => setPix im x a 0) im) hx' hy'

/-- Every write of `blacken_rect`'s clamped loops is in bounds, so the
monadic loop equals `some` of the pure loop. -/
theorem blacken_rect_eq_pure (img : Gray16Image) (x0 y0 x1 y1 : ℕ) :
    blacken_rect img x0 y0 x1 y1 = some (blackenPure img x0 y0 x1 y1) := by
  simp only [blacken_rect, blackenPure]
  apply colFoldlM_eq
  · intro x hx
    rw [mem_range'_iff] at hx
    have h1 : min x1 img.width ≤ img.width := min_le_right _ _
    omega
  · intro y hy
    rw [mem_range'_iff] at hy
    have h1 : min y1 img.height ≤ img.height := min_le_right _ _
    omega

/-- Row-major index encoding is injective for in-row coordinates. -/
theorem encode_inj {w x y xq yq : ℕ} (hx : x < w) (hxq : xq < w)
    (h : y * w + x = yq * w + xq) : y = yq ∧ x = xq := by
  have hw0 : 0 < w := Nat.lt_of_le_of_lt (Nat.zero_le x) hx
  have e1 : (x + y * w) / w = y := by
    rw [Nat.add_mul_div_right _ _ hw0, Nat.div_eq_of_lt hx, Nat.zero_add]
  have e2 : (xq + yq * w) / w = yq := by
    rw [Nat.add_mul_div_right _ _ hw0, Nat.div_eq_of_lt hxq, Nat.zero_add]
  have hcomm : x + y * w = xq + yq * w := by
    rw [Nat.add_comm x, Nat.add_comm xq]
    exact h
  have hyy : y = yq := by rw [← e1, ← e2, hcomm]
  subst hyy
  exact ⟨rfl, Nat.add_left_cancel h⟩

/-- Idempotence at the level of the pure loop. -/
theorem blackenPure_idem (img : Gray16Image) (x0 y0 x1 y1 : ℕ) :
    blackenPure (blackenPure img x0 y0 x1 y1) x0 y0 x1 y1 =
      blackenPure img x0 y0 x1 y1 := by
  obtain ⟨⟨hw, hh⟩, _⟩ := blackenPure_spec img x0 y0 x1 y1
  obtain ⟨⟨hw2, hh2⟩, _⟩ := blackenPure_spec (blackenPure img x0 y0 x1 y1) x0 y0 x1 y1
  apply Gray16Image.ext
  · rw [hw2, hw]
  · rw [hh2, hh]
  · apply List.ext_getElem
    · rw [blackenPure_data_length, blackenPure_data_length]
    · intro i h1 h2
      have e1 := blackenPure_getD (blackenPure img x0 y0 x1 y1) x0 y0 x1 y1 i
      rw [hw, hh] at e1
      have e2 := blackenPure_getD img x0 y0 x1 y1 i
      rw [← List.getD_eq_getElem _ 0 h1, ← List.getD_eq_getElem _ 0 h2, e1, e2]
      split_ifs <;> rfl

/-- C7.  Clamp safety: for every image (any dimensions, including zero) and
every rectangle arguments (including inverted or out-of-range ones),
`blacken_rect` never performs an out-of-bounds pixel access.  `put_pixel`
is modelled to return `none` exactly on an out-of-bounds write, so the
claim is that the result is always `some`. -/
theorem blacken_rect_never_out_of_bounds (img : Gray16Image) (x0 y0 x1 y1 : ℕ) :
    (blacken_rect img x0 y0 x1 y1).isSome := by
  rw [blacken_rect_eq_pure]
  rfl

/-- C8.  Redaction idempotence: applying `blacken_rect` twice with the same
rectangle produces the same buffer as applying it once. -/
theorem blacken_rect_idempotent (img : Gray16Image) (x0 y0 x1 y1 : ℕ) :
    (blacken_rect img x0 y0 x1 y1).bind (fun im => blacken_rect im x0 y0 x1 y1) =
      blacken_rect img x0 y0 x1 y1 := by
  rw [blacken_rect_eq_pure img x0 y0 x1 y1]
  show blacken_rect (blackenPure img x0 y0 x1 y1) x0 y0 x1 y1 =
    some (blackenPure img x0 y0 x1 y1)
  rw [blacken_rect_eq_pure, blackenPure_idem]

/-- C3 (amended).  Containment under the clamping the code actually
performs: the low corner is clamped to `[0, width-1] × [0, height-1]`
(saturating at `0`), the high corner to `[0, width] × [0, height]`; every
sample inside the resulting half-open rectangle becomes `0` and every
other sample is unchanged.  (The spec's claim, with the low corner clamped
to `[0, width]`, fails: see the counterexample.) -/
theorem blacken_rect_containment (img : Gray16Image) (x0 y0 x1 y1 x y : ℕ)
    (hx : x < img.width) (hy : y < img.height) :
    ∃ res, blacken_rect img x0 y0 x1 y1 = some res ∧
      getPixel res x y =
        if min x0 (img.width - 1) ≤ x ∧ x < min x1 img.width ∧
           min y0 (img.height - 1) ≤ y ∧ y < min y1 img.height
        then 0 else getPixel img x y := by
  refine ⟨blackenPure img x0 y0 x1 y1, blacken_rect_eq_pure img x0 y0 x1 y1, ?_⟩
  obtain ⟨⟨hw, hh⟩, _⟩ := blackenPure_spec img x0 y0 x1 y1
  unfold getPixel
  rw [hw, blackenPure_getD]
  have hiff :
      (∃ yq ∈ List.range' (min y0 (img.height - 1))
          (min y1 img.height - min y0 (img.height - 1)),
        ∃ xq ∈ List.range' (min x0 (img.width - 1))
            (min x1 img.width - min x0 (img.width - 1)),
          y * img.width + x = yq * img.width + xq) ↔
      (min x0 (img.width - 1) ≤ x ∧ x < min x1 img.width ∧
       min y0 (img.height - 1) ≤ y ∧ y < min y1 img.height) := by
    constructor
    · rintro ⟨yq, hyq, xq, hxq, he⟩
      rw [mem_range'_iff] at hyq hxq
      have hxqw : xq < img.width := by
        have h1 : min x1 img.width ≤ img.width := min_le_right _ _
        omega
      obtain ⟨hyy, hxx⟩ := encode_inj hx hxqw he
      refine ⟨by omega, by omega, by omega, by omega⟩
    · rintro ⟨h1, h2, h3, h4⟩
      exact ⟨y, mem_range'_iff.mpr (by omega), x, mem_range'_iff.mpr (by omega), rfl⟩
  rw [if_congr hiff rfl rfl]

/-- C3 witness: the containment theorem applied at a concrete image and
rectangle. -/
theorem blacken_rect_containment_witness :
    ∃ res, blacken_rect img2 0 0 1 1 = some res ∧
      getPixel res 1 1 =
        if min 0 (img2.width - 1) ≤ 1 ∧ 1 < min 1 img2.width ∧
           min 0 (img2.height - 1) ≤ 1 ∧ 1 < min 1 img2.height
        then 0 else getPixel img2 1 1 :=
  blacken_rect_containment img2 0 0 1 1 1 1 (by decide) (by decide)

/-- C3 counterexample: for the 4-by-4 image and the rectangle
`(10, 0)-(12, 2)` lying entirely to the right of the image, the spec's
clamping to `[0, width] × [0, height]` yields the empty rectangle
(`min 10 4 = 4`, so `(3, 0)` lies outside it), yet `blacken_rect` zeroes
the formerly-`1` sample at `(3, 0)`. -/
theorem blacken_rect_spec_clamp_cex :
    (blacken_rect img4 10 0 12 2).map (fun r => getPixel r 3 0) = some 0 ∧
    getPixel img4 3 0 = 1 ∧
    ¬ min 10 img4.width ≤ 3 := by decide

/-- C10.  The DICOM encoder unconditionally writes
`PhotometricInterpretation = "MONOCHROME2"`, `BitsAllocated = 16`,
`BitsStored = 16`, `HighBit = 15`, `PixelRepresentation = 0`, whatever the
input container held, and writes the 16-bit sample buffer verbatim (no
polarity inversion). -/
theorem write_dicom_sets_fixed_tags (file_obj : DicomObj) (img : Gray16Image)
    (save_path : Path) (writeResult : Except String Unit) :
    dcmElement (write_dynamic_image_to_dicom file_obj img save_path writeResult)
        .photometricInterpretation = some (.cs "MONOCHROME2") ∧
    dcmElement (write_dynamic_image_to_dicom file_obj img save_path writeResult)
        .bitsAllocated = some (.us 16) ∧
    dcmElement (write_dynamic_image_to_dicom file_obj img save_path writeResult)
        .bitsStored = some (.us 16) ∧
    dcmElement (write_dynamic_image_to_dicom file_obj img save_path writeResult)
        .highBit = some (.us 15) ∧
    dcmElement (write_dynamic_image_to_dicom file_obj img save_path writeResult)
        .pixelRepresentation = some (.us 0) ∧
    dcmElement (write_dynamic_image_to_dicom file_obj img save_path writeResult)
        .pixelData = some (.ow img.data) := by
  exact ⟨rfl, rfl, rfl, rfl, rfl, rfl⟩

/-- C4.  Validator rejection in `App::load_dcm`: a missing `BitsAllocated`
tag is rejected naming the tag; a present value outside 12 and 16 is
rejected naming the value; with valid bits, a missing
`PhotometricInterpretation` is rejected naming the tag; a present string
other than exactly MONOCHROME1 and MONOCHROME2 (case-sensitive) is
rejected naming the value. -/
theorem load_dcm_validator_rejection (s : App) (orc : LoadOracles) (file : DicomObj)
    (hopen : orc.openFile = .ok file) :
    (dcmElement file .bitsAllocated = none →
      (s.load_dcm orc).2 = .error (.ValueError "Missing BITS_ALLOCATED tag")) ∧
    (∀ n, dcmElement file .bitsAllocated = some (.us n) → n ≠ 12 → n ≠ 16 →
      (s.load_dcm orc).2 = .error (.ValueError
        ("Mismatched BITS_ALLOCATED, expected 12 or 16 got " ++ toString n))) ∧
    (∀ n, dcmElement file .bitsAllocated = some (.us n) → (n = 12 ∨ n = 16) →
      dcmElement file .photometricInterpretation = none →
      (s.load_dcm orc).2 = .error (.ValueError "Missing PHOTOMETRIC_INTERPRETATION tag")) ∧
    (∀ n pm, dcmElement file .bitsAllocated = some (.us n) → (n = 12 ∨ n = 16) →
      dcmElement file .photometricInterpretation = some (.cs pm) →
      pm ≠ "MONOCHROME1" → pm ≠ "MONOCHROME2" →
      (s.load_dcm orc).2 = .error (.ValueError
        ("Mismatched PHOTOMETRIC_INTERPRETATION, expected MONOCHROME1 or MONOCHROME2 got "
          ++ pm))) := by
  refine ⟨?_, ?_, ?_, ?_⟩
  · intro hba
    simp [App.load_dcm, hopen, hba]
  · intro n hba h12 h16
    simp [App.load_dcm, hopen, hba, toInt, h12, h16]
  · intro n hba hn hpm
    rcases hn with rfl | rfl <;> simp [App.load_dcm, hopen, hba, toInt, hpm]
  · intro n pm hba hn hpm hm1 hm2
    rcases hn with rfl | rfl <;> simp [App.load_dcm, hopen, hba, toInt, toStr, hpm, hm1, hm2]

/-- C4 witness: the rejection theorem applied to concrete DICOM objects
with `BitsAllocated = 8`, with `PhotometricInterpretation = "RGB"`, with
no `BitsAllocated`, and with no `PhotometricInterpretation`. -/
theorem load_dcm_validator_rejection_witness :
    (app0.load_dcm (orcOf (.ok [(Tag.bitsAllocated, Value.us 8)]))).2 =
      .error (.ValueError ("Mismatched BITS_ALLOCATED, expected 12 or 16 got " ++ toString 8)) ∧
    (app0.load_dcm (orcOf (.ok [(Tag.bitsAllocated, Value.us 16),
        (Tag.photometricInterpretation, Value.cs "RGB")]))).2 =
      .error (.ValueError
        ("Mismatched PHOTOMETRIC_INTERPRETATION, expected MONOCHROME1 or MONOCHROME2 got "
          ++ "RGB")) ∧
    (app0.load_dcm (orcOf (.ok []))).2 =
      .error (.ValueError "Missing BITS_ALLOCATED tag") ∧
    (app0.load_dcm (orcOf (.ok [(Tag.bitsAllocated, Value.us 12)]))).2 =
      .error (.ValueError "Missing PHOTOMETRIC_INTERPRETATION tag") := by
  refine ⟨?_, ?_, ?_, ?_⟩
  · exact (load_dcm_validator_rejection app0
      (orcOf (.ok [(Tag.bitsAllocated, Value.us 8)]))
      [(Tag.bitsAllocated, Value.us 8)] rfl).2.1 8 rfl (by decide) (by decide)
  · exact (load_dcm_validator_rejection app0
      (orcOf (.ok [(Tag.bitsAllocated, Value.us 16),
        (Tag.photometricInterpretation, Value.cs "RGB")]))
      [(Tag.bitsAllocated, Value.us 16), (Tag.photometricInterpretation, Value.cs "RGB")]
      rfl).2.2.2 16 "RGB" rfl (Or.inr rfl) rfl (by decide) (by decide)
  · exact (load_dcm_validator_rejection app0 (orcOf (.ok [])) [] rfl).1 rfl
  · exact (load_dcm_validator_rejection app0
      (orcOf (.ok [(Tag.bitsAllocated, Value.us 12)]))
      [(Tag.bitsAllocated, Value.us 12)] rfl).2.2.1 12 rfl (Or.inl rfl) rfl

/-- C6.  Display projection: each display byte is the high byte
`sample >>> 8` of the corresponding (resized) 16-bit sample, inverted to
`255 - (sample >>> 8)` exactly when the photometric interpretation is
MONOCHROME1; and rebuilding the display never modifies the canonical
buffer `gray_img`. -/
theorem display_projection_value_mapping
    (resizeF : Gray16Image → ℕ → ℕ → Gray16Image) (full : Gray16Image)
    (dw dh : ℕ) (pm : Option String) (i : ℕ)
    (hi : i < (resizeF full dw dh).data.length)
    (hs : (resizeF full dw dh).data.getD i 0 < 65536) :
    ((gray16_to_display_color_image resizeF full dw dh pm).pixels.getD i 0 =
      if pm = some "MONOCHROME1"
      then 255 - ((resizeF full dw dh).data.getD i 0 >>> 8)
      else (resizeF full dw dh).data.getD i 0 >>> 8) ∧
    ∀ (s : App), (App.rebuild_display_from_full resizeF s).gray_img = s.gray_img := by
  constructor
  · have hml : i < ((resizeF full dw dh).data.map (displayByte pm)).length := by
      simpa using hi
    have h8 : (resizeF full dw dh).data.getD i 0 >>> 8 < 256 := by
      rw [Nat.shiftRight_eq_div_pow]
      exact (Nat.div_lt_iff_lt_mul (by norm_num)).mpr (by simpa using hs)
    simp only [gray16_to_display_color_image]
    rw [List.getD_eq_getElem _ 0 hml, List.getElem_map, ← List.getD_eq_getElem _ 0 hi]
    unfold displayByte
    rw [Nat.mod_eq_of_lt h8]
  · intro s
    rcases hg : s.gray_img with _ | full' <;> rcases hd : s.display_dims with _ | d <;>
      simp [App.rebuild_display_from_full, hg, hd]

/-- C6 witness: the projection theorem at a concrete image with
MONOCHROME1 photometric interpretation and an identity resize. -/
theorem display_projection_value_mapping_witness :
    ((gray16_to_display_color_image (fun f _ _ => f) img2 2 2 (some "MONOCHROME1")).pixels.getD 0 0 =
      if (some "MONOCHROME1" : Option String) = some "MONOCHROME1"
      then 255 - (((fun (f : Gray16Image) (_ _ : ℕ) => f) img2 2 2).data.getD 0 0 >>> 8)
      else ((fun (f : Gray16Image) (_ _ : ℕ) => f) img2 2 2).data.getD 0 0 >>> 8) ∧
    ∀ (s : App),
      (App.rebuild_display_from_full (fun f _ _ => f) s).gray_img = s.gray_img :=
  display_projection_value_mapping (fun f _ _ => f) img2 2 2 (some "MONOCHROME1") 0
    (by decide) (by decide)

/-- C5.  Coordinate mapping: with a loaded image of positive dimensions
and a display rectangle of positive extent, `screen_to_pixel` returns
`none` exactly for points outside the rectangle, agrees with the spec's
`to_canonical` formula (`floor(u*w)`, `floor(v*h)`, clamped to
`[0, dimension-1]`), and maps the rectangle's top-left corner to
`(0, 0)`. -/
theorem screen_to_pixel_spec (s : App) (i : Gray16Image) (r : Rect) (p : Pos2)
    (himg : s.gray_img = some i) (hw : 1 ≤ i.width) (hh : 1 ≤ i.height)
    (hrw : 0 < r.width) (hrh : 0 < r.height) :
    (s.screen_to_pixel r p = none ↔ ¬ r.contains p) ∧
    s.screen_to_pixel r p = to_canonical_spec i.width i.height r p ∧
    s.screen_to_pixel r ⟨r.left, r.top⟩ = some (0, 0) := by
  have hcw : ((i.width - 1 : ℕ) : ℤ) = (i.width : ℤ) - 1 := by
    push_cast [hw]
    ring
  have hch : ((i.height - 1 : ℕ) : ℤ) = (i.height : ℤ) - 1 := by
    push_cast [hh]
    ring
  refine ⟨?_, ?_, ?_⟩
  · by_cases hc : r.contains p <;> simp [App.screen_to_pixel, himg, hc]
  · by_cases hc : r.contains p <;>
      simp [App.screen_to_pixel, to_canonical_spec, himg, hc, hcw, hch]
  · have hlr : r.left ≤ r.right := by
      have := hrw
      rw [Rect.width] at this
      linarith
    have htb : r.top ≤ r.bottom := by
      have := hrh
      rw [Rect.height] at this
      linarith
    have hcorner : r.contains ⟨r.left, r.top⟩ := ⟨le_refl _, hlr, le_refl _, htb⟩
    have hnw : ¬ (((i.width - 1 : ℕ) : ℤ) < 0) := not_lt.mpr (Int.natCast_nonneg _)
    have hnh : ¬ (((i.height - 1 : ℕ) : ℤ) < 0) := not_lt.mpr (Int.natCast_nonneg _)
    simp [App.screen_to_pixel, himg, hcorner, clampInt, hnw, hnh]

/-- C5 witness: the mapping theorem at a concrete loaded state, square
display rectangle and interior point. -/
theorem screen_to_pixel_spec_witness :
    (({ app0 with gray_img := some img2 } : App).screen_to_pixel
        ⟨0, 0, 4, 4⟩ ⟨1, 1⟩ = none ↔ ¬ Rect.contains ⟨0, 0, 4, 4⟩ ⟨1, 1⟩) ∧
    ({ app0 with gray_img := some img2 } : App).screen_to_pixel ⟨0, 0, 4, 4⟩ ⟨1, 1⟩ =
      to_canonical_spec img2.width img2.height ⟨0, 0, 4, 4⟩ ⟨1, 1⟩ ∧
    ({ app0 with gray_img := some img2 } : App).screen_to_pixel ⟨0, 0, 4, 4⟩
      ⟨Rect.left ⟨0, 0, 4, 4⟩, Rect.top ⟨0, 0, 4, 4⟩⟩ = some (0, 0) :=
  screen_to_pixel_spec _ img2 _ _ rfl (by decide) (by decide)
    (by norm_num [Rect.width]) (by norm_num [Rect.height])

/-- C1 (code bug).  The load is not atomic: with a DICOM document open,
a failed load of a generic path clears `is_dcm`, `dcm` and
`photometric_interpretation` before the failure, and with a generic
document open, a failed load of an invalid DICOM path installs the new
container and sets `is_dcm` before validation fails — in both cases the
load returns an error yet the document state differs from the previous
document (only `gray_img`, `color_img`, `display_dims` and `opened_path`
survive unchanged). -/
theorem load_image_not_atomic :
    ((appDoc.load_image pathPng orcFail).2 ≠ .ok () ∧
      (appDoc.load_image pathPng orcFail).1.gray_img = appDoc.gray_img ∧
      (appDoc.load_image pathPng orcFail).1.opened_path = appDoc.opened_path ∧
      (appDoc.load_image pathPng orcFail).1.is_dcm ≠ appDoc.is_dcm ∧
      (appDoc.load_image pathPng orcFail).1.dcm ≠ appDoc.dcm ∧
      (appDoc.load_image pathPng orcFail).1.photometric_interpretation ≠
        appDoc.photometric_interpretation) ∧
    ((appDocG.load_image pathDcm orcBadDcm).2 ≠ .ok () ∧
      (appDocG.load_image pathDcm orcBadDcm).1.is_dcm ≠ appDocG.is_dcm ∧
      (appDocG.load_image pathDcm orcBadDcm).1.dcm ≠ appDocG.dcm) := by
  decide

/-- C2 (code bug).  The Save As handler neither surfaces a failed write
(`last_error` stays empty, the write result being discarded inside
`write_dynamic_image_to_dicom`) nor leaves the in-memory document
unchanged: even when serialization fails, the retained DICOM container
has been mutated in place — its MONOCHROME1 photometric tag is
overwritten with MONOCHROME2. -/
theorem save_as_swallows_write_failure :
    (appDocM1.saveAsHandler outPath (.error "disk full")).last_error = none ∧
    (appDocM1.saveAsHandler outPath (.error "disk full")).dcm ≠ appDocM1.dcm ∧
    ((appDocM1.saveAsHandler outPath (.error "disk full")).dcm.map
        (fun d => dcmElement d .photometricInterpretation)) =
      some (some (.cs "MONOCHROME2")) ∧
    (appDocM1.dcm.map (fun d => dcmElement d .photometricInterpretation)) =
      some (some (.cs "MONOCHROME1")) := by
  decide

/-- C9 (amended).  Display sizing: both computed display dimensions fit
within `max_dim = 8192`; if `max(w,h) ≤ 8192` the input dimensions are
returned exactly (no upscaling); otherwise the result is
`round(dimension * scale)` for `scale = 8192 / max(w,h)` — but floored at
a minimum of `1` (the source's `.max(1.0)`), which the spec's claim
omits. -/
theorem fit_within_max_dim_spec (w h : ℕ) :
    (fit_within_max_dim w h 8192).1 ≤ 8192 ∧
    (fit_within_max_dim w h 8192).2 ≤ 8192 ∧
    (max w h ≤ 8192 → fit_within_max_dim w h 8192 = (w, h)) ∧
    (8192 < max w h →
      fit_within_max_dim w h 8192 =
        ((max (round ((w : ℚ) * ((8192 : ℚ) / (max w h : ℚ)))) 1).toNat,
         (max (round ((h : ℚ) * ((8192 : ℚ) / (max w h : ℚ)))) 1).toNat)) := by
  by_cases hle : max w h ≤ 8192
  · have h1 : fit_within_max_dim w h 8192 = (w, h) := by
      simp [fit_within_max_dim, hle]
    refine ⟨?_, ?_, fun _ => h1, fun hgt => absurd hle (not_le.mpr hgt)⟩
    · rw [h1]
      exact le_trans (le_max_left w h) hle
    · rw [h1]
      exact le_trans (le_max_right w h) hle
  · have hgt : 8192 < max w h := not_le.mp hle
    have hm0 : (0 : ℚ) < (max w h : ℚ) := by
      exact_mod_cast Nat.lt_of_lt_of_le (by norm_num) (le_of_lt hgt)
    have hbound : ∀ d : ℕ, d ≤ max w h →
        (max (round ((d : ℚ) * ((8192 : ℚ) / (max w h : ℚ)))) 1).toNat ≤ 8192 := by
      intro d hd
      have hq : (d : ℚ) * ((8192 : ℚ) / (max w h : ℚ)) ≤ 8192 := by
        rw [mul_div_assoc']
        rw [div_le_iff₀ hm0]
        have : (d : ℚ) ≤ (max w h : ℚ) := by exact_mod_cast hd
        nlinarith
      have hr : round ((d : ℚ) * ((8192 : ℚ) / (max w h : ℚ))) ≤ 8192 := by
        rw [round_eq]
        have : ⌊(d : ℚ) * ((8192 : ℚ) / (max w h : ℚ)) + 1 / 2⌋ < 8193 := by
          rw [Int.floor_lt]
          push_cast
          linarith
        omega
      rw [Int.toNat_le]
      exact max_le hr (by norm_num)
    have h1 : fit_within_max_dim w h 8192 =
        ((max (round ((w : ℚ) * ((8192 : ℚ) / (max w h : ℚ)))) 1).toNat,
         (max (round ((h : ℚ) * ((8192 : ℚ) / (max w h : ℚ)))) 1).toNat) := by
      simp [fit_within_max_dim, hle]
    refine ⟨?_, ?_, fun hle2 => absurd hle2 hle, fun _ => h1⟩
    · rw [h1]
      exact hbound w (le_max_left w h)
    · rw [h1]
      exact hbound h (le_max_right w h)

/-- C9 witness: the sizing theorem's oversize branch taken at a concrete
thin image. -/
theorem fit_within_max_dim_spec_witness :
    fit_within_max_dim 1 32768 8192 =
      ((max (round ((1 : ℚ) * ((8192 : ℚ) / (max 1 32768 : ℚ)))) 1).toNat,
       (max (round ((32768 : ℚ) * ((8192 : ℚ) / (max 1 32768 : ℚ)))) 1).toNat) :=
  (fit_within_max_dim_spec 1 32768).2.2.2 (by norm_num)

/-- C9 counterexample: at `w = 1`, `h = 32768`, `max_dim = 8192` the code
returns `(1, 8192)` while the spec's claimed formula
`round(w * 8192 / max(w,h))` gives `round(1/4) = 0` for the width — the
source's `.max(1.0)` floor is observable. -/
theorem fit_within_max_dim_round_cex :
    fit_within_max_dim 1 32768 8192 = (1, 8192) ∧
    round ((1 : ℚ) * ((8192 : ℚ) / (max 1 32768 : ℚ))) = 0 ∧
    (0 : ℤ) ≠ 1 := by
  refine ⟨?_, ?_, by decide⟩
  · norm_num [fit_within_max_dim, round_eq]
    decide
  · norm_num [round_eq]

end DcmRedact
